import Mathlib

/-!
Verification development for the timber code generator (`src/.old/gen.py`).

The Python module is embedded shallowly:

* Python `dict`s (insertion ordered, unique keys) become association lists
  together with the operations `dget` (lookup), `dset` (insert-or-overwrite,
  keeping the position of an overwritten key) and `dupdate` (`dict.update`).
* The mutable fluent `Unit` builder becomes a pure record with one function
  per builder method, each returning the updated record.
* The mutable `Namespace` and the process-global `_next_label_id` counter are
  threaded explicitly through the generators (`GenSt`).
* Fallible code returns `Except GErr`.  `GErr.unresolvedIdentifier` and
  `GErr.unresolvedLabel` are the two `GenError` cases raised by the source;
  `typeError`, `assertionError` and `indexError` model the corresponding
  Python runtime exceptions where the source would raise them.
-/

namespace Timber

/-- Lookup in an insertion-ordered association list, as for a Python dict
(`m[k]` / `k in m`). -/
def dget {α β : Type} [DecidableEq α] : List (α × β) → α → Option β
  | [], _ => none
  | (k0, v0) :: t, k => if k0 = k then some v0 else dget t k

/-- `m[k] = v` on a Python dict: overwrite in place if the key exists,
otherwise append the new binding at the end. -/
def dset {α β : Type} [DecidableEq α] : List (α × β) → α → β → List (α × β)
  | [], k, v => [(k, v)]
  | (k0, v0) :: t, k, v => if k0 = k then (k, v) :: t else (k0, v0) :: dset t k v

/-- `m.update(l)` on Python dicts: set every binding of `l`, in order. -/
def dupdate {α β : Type} [DecidableEq α] (m l : List (α × β)) : List (α × β) :=
  l.foldl (fun acc p => dset acc p.1 p.2) m

/-- Modelled from the spec: the instruction kinds of the `vm` module
(imported by `gen.py` but not part of the sources), exactly the mnemonics of
the target instruction-set table, plus the debug no-op `St` that the
assembler exposes. -/
inductive InstrKind where
  | Push | Pop | Dup | Rot | Load | Store
  | Add | Sub | Shl | Shr | And | Or
  | Call | Ret | Jmp | JmpF | JmpT
  | Print | Halt | St
  deriving DecidableEq

/-- Modelled from the spec: `vm.Instr`, a tagged operation with an optional
single integer immediate operand. -/
structure Instr where
  kind : InstrKind
  arg : Option Int
  deriving DecidableEq

/-- `_TOS_ADDR_PTR`: memory address 0 holds the TOS pointer. -/
def TOS_ADDR_PTR : Int := 0

/-- `_STACK_BASE`: address 8 is the first virtual-stack slot. -/
def STACK_BASE : Int := 8

/-- `_DUMMY_ADDR`: the sentinel operand of a not-yet-linked jump or call. -/
def DUMMY_ADDR : Int := -9999999

/-- The errors generation can signal.  `unresolvedIdentifier` and
`unresolvedLabel` are the two `GenError` messages of `gen.py`
(`Unknown identifier: ...` and `Unknown label: ...`); `typeError`,
`assertionError` and `indexError` model the Python runtime exceptions the
source raises at the corresponding program points. -/
inductive GErr where
  | unresolvedIdentifier (name : String)
  | unresolvedLabel (name : String)
  | typeError (msg : String)
  | assertionError
  | indexError
  deriving DecidableEq

/-- `Unit` of `gen.py`: a program fragment plus label/jump/comment
bookkeeping.  `instrs` models the `vm.Program` (modrelled from the spec as an
ordered, index-addressable sequence of instructions whose `here` attribute is
the index of the next instruction to be appended, i.e. its length).  Comment
keys are integers because `inline_comment` uses index `here - 1`, which is
`-1` on an empty unit. -/
structure Unit where
  instrs : List Instr
  labels : List (String × Nat)
  jumps : List (Nat × String)
  comments : List (Int × String)
  inline_comments : List (Int × String)
  deriving DecidableEq

/-- A fresh `Unit()` with all fields empty. -/
def Unit.empty : Unit := ⟨[], [], [], [], []⟩

/-- `Unit._add_instr`. -/
def Unit.add_instr (u : Unit) (k : InstrKind) (arg : Option Int) : Unit :=
  { u with instrs := u.instrs ++ [⟨k, arg⟩] }

/-- `Unit.label`: bind `name` to the next instruction index. -/
def Unit.label (u : Unit) (name : String) : Unit :=
  { u with labels := dset u.labels name u.instrs.length }

/-- `Unit.comment`: attach (or extend with a newline) the comment at the
next instruction index. -/
def Unit.comment (u : Unit) (c : String) : Unit :=
  match dget u.comments (u.instrs.length : Int) with
  | none => { u with comments := dset u.comments (u.instrs.length : Int) c }
  | some old =>
    { u with comments := dset u.comments (u.instrs.length : Int) (old ++ "\n" ++ c) }

/-- `Unit.inline_comment`: attach (or extend with a separator) the inline
comment of the most recently appended instruction. -/
def Unit.inline_comment (u : Unit) (c : String) : Unit :=
  match dget u.inline_comments ((u.instrs.length : Int) - 1) with
  | none =>
    { u with inline_comments := dset u.inline_comments ((u.instrs.length : Int) - 1) c }
  | some old =>
    { u with
      inline_comments :=
        dset u.inline_comments ((u.instrs.length : Int) - 1) (old ++ "; " ++ c) }

def Unit.halt (u : Unit) : Unit := u.add_instr InstrKind.Halt none

def Unit.rot (u : Unit) : Unit := u.add_instr InstrKind.Rot none

def Unit.load (u : Unit) : Unit := u.add_instr InstrKind.Load none

def Unit.store (u : Unit) : Unit := u.add_instr InstrKind.Store none

def Unit.add (u : Unit) : Unit := u.add_instr InstrKind.Add none

def Unit.sub (u : Unit) : Unit := u.add_instr InstrKind.Sub none

def Unit.shl (u : Unit) : Unit := u.add_instr InstrKind.Shl none

def Unit.ret (u : Unit) : Unit := u.add_instr InstrKind.Ret none

def Unit.pop (u : Unit) : Unit := u.add_instr InstrKind.Pop none

def Unit.print (u : Unit) : Unit := u.add_instr InstrKind.Print none

def Unit.push (u : Unit) (arg : Int) : Unit := u.add_instr InstrKind.Push (some arg)

/-- `Unit.call`: record a deferred jump at the current index, then append a
`Call` with the sentinel operand. -/
def Unit.call (u : Unit) (name : String) : Unit :=
  Unit.add_instr { u with jumps := dset u.jumps u.instrs.length name }
    InstrKind.Call (some DUMMY_ADDR)

/-- `Unit.jmp`. -/
def Unit.jmp (u : Unit) (name : String) : Unit :=
  Unit.add_instr { u with jumps := dset u.jumps u.instrs.length name }
    InstrKind.Jmp (some DUMMY_ADDR)

/-- `Unit.jmp_f`. -/
def Unit.jmp_f (u : Unit) (name : String) : Unit :=
  Unit.add_instr { u with jumps := dset u.jumps u.instrs.length name }
    InstrKind.JmpF (some DUMMY_ADDR)

/-- `Unit.jmp_t`. -/
def Unit.jmp_t (u : Unit) (name : String) : Unit :=
  Unit.add_instr { u with jumps := dset u.jumps u.instrs.length name }
    InstrKind.JmpT (some DUMMY_ADDR)

/-- `Unit.insert`: append another unit, rewriting its label indices, jump
source indices and comment indices by the receiver's current length, and
merging boundary comments/inline comments with the source's separators. -/
def Unit.insert (a b : Unit) : Unit :=
  let off := a.instrs.length
  let offset_labels := b.labels.map (fun p => (p.1, p.2 + off))
  let offset_jumps := b.jumps.map (fun p => (p.1 + off, p.2))
  let bcomments :=
    match dget a.comments (off : Int), dget b.comments 0 with
    | some ac, some bc => dset b.comments 0 (ac ++ "\n" ++ bc)
    | _, _ => b.comments
  let offset_comments := bcomments.map (fun p => (p.1 + (off : Int), p.2))
  let binline :=
    match dget a.inline_comments (off : Int), dget b.inline_comments 0 with
    | some ac, some bc => dset b.inline_comments 0 (ac ++ "; " ++ bc)
    | _, _ => b.inline_comments
  let offset_inline_comments := binline.map (fun p => (p.1 + (off : Int), p.2))
  { instrs := a.instrs ++ b.instrs
    labels := dupdate a.labels offset_labels
    jumps := dupdate a.jumps offset_jumps
    comments := dupdate a.comments offset_comments
    inline_comments := dupdate a.inline_comments offset_inline_comments }

/-- `True` exactly when the kind is one the source's `link` assertion
accepts (`Jmp`, `JmpF`, `JmpT`, `Call`). -/
def is_jump_kind (k : InstrKind) : Bool :=
  match k with
  | InstrKind.Jmp => true
  | InstrKind.JmpF => true
  | InstrKind.JmpT => true
  | InstrKind.Call => true
  | _ => false

/-- The loop body of `Unit.link`: resolve each deferred jump in recorded
order, rewriting the instruction at its address.  The source indexes
`self.instrs[addr]` (IndexError if absent) and asserts the kind and the
sentinel operand (AssertionError on failure) before writing
`labels[name] - 1`. -/
def linkGo (labels : List (String × Nat)) :
    List (Nat × String) → List Instr → Except GErr (List Instr)
  | [], instrs => Except.ok instrs
  | (addr, name) :: rest, instrs =>
    match dget labels name with
    | none => Except.error (GErr.unresolvedLabel name)
    | some t =>
      match instrs[addr]? with
      | none => Except.error GErr.indexError
      | some i =>
        if is_jump_kind i.kind = true then
          if i.arg = some DUMMY_ADDR then
            linkGo labels rest (instrs.set addr (Instr.mk i.kind (some ((t : Int) - 1))))
          else Except.error GErr.assertionError
        else Except.error GErr.assertionError

/-- `Unit.link`. -/
def Unit.link (u : Unit) : Except GErr Unit :=
  (linkGo u.labels u.jumps u.instrs).map (fun instrs => { u with instrs := instrs })

/-- `Unit.load_tos_ptr`. -/
def Unit.load_tos_ptr (u : Unit) (offset : Nat) : Unit :=
  if offset = 0 then
    ((u.push TOS_ADDR_PTR).load)
  else
    ((((u.push TOS_ADDR_PTR).load).push (offset : Int)).sub)

/-- `Unit.store_tos_ptr`. -/
def Unit.store_tos_ptr (u : Unit) : Unit :=
  (u.push TOS_ADDR_PTR).store

/-- `Unit.load_tos`. -/
def Unit.load_tos (u : Unit) (offset : Nat) : Unit :=
  ((u.load_tos_ptr offset).load).inline_comment s!"Load TOS[{offset}]"

/-- `Unit.store_tos`. -/
def Unit.store_tos (u : Unit) (offset : Nat) : Unit :=
  ((u.load_tos_ptr offset).store).inline_comment s!"Store TOS[{offset}]"

/-- `Unit.incr_tos`: skipped entirely when the delta is zero. -/
def Unit.incr_tos (u : Unit) (offset : Nat) : Unit :=
  if offset = 0 then u
  else
    (((((u.load_tos_ptr 0).push (offset : Int)).add).store_tos_ptr).inline_comment
      s!"TOS += {offset}")

/-- `Unit.decr_tos`: the source has `assert offset >= 0` (vacuous here since
the delta is a `Nat`) and, unlike `incr_tos`, no zero-delta skip. -/
def Unit.decr_tos (u : Unit) (offset : Nat) : Unit :=
  (((((u.load_tos_ptr 0).push (offset : Int)).sub).store_tos_ptr).inline_comment
    s!"TOS -= {offset}")

/-- `Unit.fresh`: the program entry stub.  (`Unit().fresh()` in `gen` calls
the classmethod on an instance, which builds and returns a new fresh unit and
discards the receiver, so it is the same as `Unit.fresh()`.) -/
def Unit.fresh : Unit :=
  ((((((Unit.empty.comment "entrypoint \x7b").push STACK_BASE).push
    TOS_ADDR_PTR).store).call "main").halt).comment "\x7d entrypoint"

/-- `Unit.intrinsics`: the builtin subroutine library appended to every
compiled program (`and`, `or` and `shr` are commented out in the source). -/
def Unit.intrinsics (u : Unit) : Unit :=
  let binary_ops : List (String × Unit) :=
    [("add", Unit.empty.add), ("sub", Unit.empty.sub), ("shl", Unit.empty.shl)]
  let u := binary_ops.foldl
    (fun u p =>
      match p with
      | (name, opu) =>
        (((((((u.comment s!"def {name} \x7b").label name).load_tos 1).load_tos
          0).insert opu).rot).ret).comment s!"\x7d def {name}")
    u
  let unary_ops : List (String × Unit) :=
    [("print", (Unit.empty.print).push 0)]
  let u := unary_ops.foldl
    (fun u p =>
      match p with
      | (name, opu) =>
        ((((((u.comment s!"def {name} \x7b").label name).load_tos 0).insert
          opu).rot).ret).comment s!"\x7d def {name}")
    u
  let u := (((((u.comment "def exit \x7b").label "exit").pop).load_tos
    0).halt).comment "\x7d def exit"
  ((((((((u.comment "def return \x7b").label "return").load_tos
    0).rot).pop).rot).ret).comment "\x7d def return")

/-- `Namespace`: the scope resolver.  The innermost frame is the last
element of `stack`, as in the Python list. -/
structure Namespace where
  stack : List (List (String × Nat))
  max_depth : Nat
  deriving DecidableEq

def Namespace.empty : Namespace := ⟨[], 0⟩

/-- `Namespace.depth`. -/
def Namespace.depth (ns : Namespace) : Nat :=
  (ns.stack.map List.length).sum

/-- `Namespace.push`. -/
def Namespace.push (ns : Namespace) : Namespace :=
  { ns with stack := ns.stack ++ [[]] }

/-- `Namespace.pop`. -/
def Namespace.pop (ns : Namespace) : Namespace :=
  { ns with stack := ns.stack.dropLast }

/-- Walk a list of frames front-first and return the first binding found
(`Namespace.get` applies this to `reversed(self.stack)`). -/
def frames_get (frames : List (List (String × Nat))) (name : String) : Option Nat :=
  match frames with
  | [] => none
  | f :: rest =>
    match dget f name with
    | some v => some v
    | none => frames_get rest name

/-- `Namespace.get`: innermost-to-outermost search; `GenError` with the
offending name when no frame binds it. -/
def Namespace.get (ns : Namespace) (name : String) : Except GErr Nat :=
  match frames_get ns.stack.reverse name with
  | some v => Except.ok v
  | none => Except.error (GErr.unresolvedIdentifier name)

/-- `Namespace.add`: note the required second positional argument
`stack_size`, unused by the body.  Both call sites in the source
(`gen_var_decl`, `gen_fn_def`) omit it, so in CPython those calls raise
`TypeError` before this body ever runs; the body is modelled here for
completeness.  The `assert name not in self.stack[-1]` becomes
`assertionError`, and `self.stack[-1]` on an empty stack `indexError`. -/
def Namespace.add (ns : Namespace) (names : List String) (stack_size : Nat) :
    Except GErr Namespace :=
  match names with
  | [] => Except.ok ns
  | name :: rest =>
    match ns.stack.getLast? with
    | none => Except.error GErr.indexError
    | some frame =>
      if (dget frame name).isSome then Except.error GErr.assertionError
      else
        Namespace.add
          { stack := ns.stack.dropLast ++ [dset frame name (ns.depth + 1)]
            max_depth := max ns.max_depth ns.depth }
          rest stack_size

/-- `Unit.new_label`: the process-global monotonically increasing counter
`_next_label_id` (initially `-1`), incremented before use. -/
def new_label (c : Int) : String × Int :=
  (s!"__{c + 1}", c + 1)

/-- The generator state threaded through statement generation: the scope
resolver plus the global synthetic-label counter. -/
structure GenSt where
  ns : Namespace
  counter : Int
  deriving DecidableEq

/-- Modelled from the spec: the literal payload of the `common` module's
`Lit` node (only integer literals exist). -/
inductive LitChild where
  | int (value : Int)

/-- Modelled from the spec: `common.Lit`. -/
structure Lit where
  child : LitChild

mutual
/-- Modelled from the spec: `common.Stmt`, a wrapper holding one child
node. -/
inductive Stmt where
  | mk (child : StmtChild)
/-- Modelled from the spec: the node kinds a `Stmt` can wrap
(`Block`, `Expr`, `FnDef`, `WhileLoop`, `VarDecl`, `Assign`), with each
node's fields inlined. -/
inductive StmtChild where
  | block (children : List Stmt)
  | expr (e : Expr)
  | fnDef (name : String) (arg_names : List String) (stmt : Stmt)
  | whileLoop (guard : Expr) (body : Stmt)
  | varDecl (name : String)
  | assign (name : String) (expr : Expr)
/-- Modelled from the spec: `common.Expr`, a wrapper holding one child
node. -/
inductive Expr where
  | mk (child : ExprChild)
/-- Modelled from the spec: the node kinds an `Expr` can wrap
(`Lit`, `Var`, `FnCall`). -/
inductive ExprChild where
  | lit (l : Lit)
  | var (name : String)
  | fnCall (name : String) (args : List Expr)
end

/-- `gen_int`. -/
def gen_int (value : Int) : Unit :=
  (Unit.empty.push value).inline_comment s!"int {value}"

/-- `gen_lit` (the only literal kind is `Int`). -/
def gen_lit (l : Lit) (ns : Namespace) : Except GErr (Unit × Namespace) :=
  match l.child with
  | LitChild.int v => Except.ok (gen_int v, ns)

/-- `gen_var`. -/
def gen_var (name : String) (ns : Namespace) : Except GErr (Unit × Namespace) :=
  match ns.get name with
  | Except.error er => Except.error er
  | Except.ok v => Except.ok ((Unit.empty.load_tos v).inline_comment name, ns)

mutual
/-- `gen_expr`: structural dispatch on the expression child. -/
def gen_expr (e : Expr) (ns : Namespace) : Except GErr (Unit × Namespace) :=
  match e with
  | Expr.mk (ExprChild.lit l) => gen_lit l ns
  | Expr.mk (ExprChild.var name) => gen_var name ns
  | Expr.mk (ExprChild.fnCall name args) => gen_fn_call name args ns
termination_by sizeOf e

/-- `gen_fn_call`: generate the arguments under a pushed frame, store each
into the callee frame slots `0..n-1`, then emit the deferred call. -/
def gen_fn_call (name : String) (args : List Expr) (ns : Namespace) :
    Except GErr (Unit × Namespace) :=
  match gen_args args ns.push with
  | Except.error er => Except.error er
  | Except.ok (args_raw, ns1) =>
    let args_pushed := args_raw.enum.map
      (fun p => (Unit.empty.insert p.2).store_tos p.1)
    let args_unit := args_pushed.foldl Unit.insert
      (Unit.empty.comment s!"call {name} \x7b")
    Except.ok
      (((args_unit.call name).inline_comment name).comment s!"\x7d call {name}",
        ns1.pop)
termination_by sizeOf args + 1

/-- The list comprehension `[gen_expr(arg, ns) for arg in fn_call.args]`,
with the namespace threaded left to right. -/
def gen_args (l : List Expr) (ns : Namespace) :
    Except GErr (List Unit × Namespace) :=
  match l with
  | [] => Except.ok ([], ns)
  | e :: rest =>
    match gen_expr e ns with
    | Except.error er => Except.error er
    | Except.ok (u, ns1) =>
      match gen_args rest ns1 with
      | Except.error er => Except.error er
      | Except.ok (us, ns2) => Except.ok (u :: us, ns2)
termination_by sizeOf l
end

/-- `gen_var_decl`: the source runs `ns.pop()` and then
`ns.add([var_decl.name])` — but `Namespace.add` requires the second
positional argument `stack_size`, so CPython raises `TypeError` here before
any binding happens. -/
def gen_var_decl (_name : String) (_st : GenSt) : Except GErr (Unit × GenSt) :=
  Except.error (GErr.typeError
    "add() missing 1 required positional argument: stack_size")

/-- `gen_fn_def`: the source runs `ns.push()` and then
`ns.add(fn_def.arg_names)` — the same missing `stack_size` argument as in
`gen_var_decl`, so CPython raises `TypeError` before the body is generated
or any instruction is emitted. -/
def gen_fn_def (_name : String) (_arg_names : List String) (_body : Stmt)
    (_st : GenSt) : Except GErr (Unit × GenSt) :=
  Except.error (GErr.typeError
    "add() missing 1 required positional argument: stack_size")

/-- `gen_assign`: generate the right-hand side under a pushed frame, pop it,
then store into the resolved slot of the target name. -/
def gen_assign (name : String) (e : Expr) (st : GenSt) :
    Except GErr (Unit × GenSt) :=
  match gen_expr e st.ns.push with
  | Except.error er => Except.error er
  | Except.ok (eu, ns1) =>
    match (ns1.pop).get name with
    | Except.error er => Except.error er
    | Except.ok slot =>
      Except.ok (((Unit.empty.insert eu).store_tos slot).inline_comment name,
        { st with ns := ns1.pop })

mutual
/-- `gen_stmt`: push a frame, dispatch on the child kind.  The source's
trailing `ns.pop()` (gen.py line 357) is dead code — every branch returns
first — so the pushed frame is never popped here. -/
def gen_stmt (s : Stmt) (st : GenSt) : Except GErr (Unit × GenSt) :=
  match s with
  | Stmt.mk child =>
    match child with
    | StmtChild.block children =>
      gen_block children { st with ns := st.ns.push }
    | StmtChild.expr e =>
      match gen_expr e (st.ns.push) with
      | Except.error er => Except.error er
      | Except.ok (u, ns1) => Except.ok (u.pop, { st with ns := ns1 })
    | StmtChild.fnDef name arg_names body =>
      gen_fn_def name arg_names body { st with ns := st.ns.push }
    | StmtChild.whileLoop guard body =>
      gen_while_loop guard body { st with ns := st.ns.push }
    | StmtChild.varDecl name =>
      gen_var_decl name { st with ns := st.ns.push }
    | StmtChild.assign name e =>
      gen_assign name e { st with ns := st.ns.push }
termination_by sizeOf s

/-- `gen_block`: push a frame, generate the children in order, pop, and
concatenate the fragments (`reduce(Unit.insert, units, Unit())`). -/
def gen_block (children : List Stmt) (st : GenSt) : Except GErr (Unit × GenSt) :=
  match gen_stmts children { st with ns := st.ns.push } with
  | Except.error er => Except.error er
  | Except.ok (units, st1) =>
    Except.ok (units.foldl Unit.insert Unit.empty, { st1 with ns := st1.ns.pop })
termination_by sizeOf children + 1

/-- The list comprehension `[gen_stmt(child, ns) for child in
block.children]`, with the state threaded left to right. -/
def gen_stmts (l : List Stmt) (st : GenSt) : Except GErr (List Unit × GenSt) :=
  match l with
  | [] => Except.ok ([], st)
  | s :: rest =>
    match gen_stmt s st with
    | Except.error er => Except.error er
    | Except.ok (u, st1) =>
      match gen_stmts rest st1 with
      | Except.error er => Except.error er
      | Except.ok (us, st2) => Except.ok (u :: us, st2)
termination_by sizeOf l

/-- `gen_while_loop`: generate guard then body (each under its own pushed
and popped frame), mint the three synthetic labels, and lay the fragment out
as `jmp guard; start: body; guard: guard-expr; jmp_t start; end:`. -/
def gen_while_loop (guard : Expr) (body : Stmt) (st : GenSt) :
    Except GErr (Unit × GenSt) :=
  match gen_expr guard st.ns.push with
  | Except.error er => Except.error er
  | Except.ok (gu, ns1) =>
    match gen_stmt body { ns := (ns1.pop).push, counter := st.counter } with
    | Except.error er => Except.error er
    | Except.ok (bu, st2) =>
      match new_label st2.counter with
      | (start_label, c1) =>
        match new_label c1 with
        | (guard_label, c2) =>
          match new_label c2 with
          | (end_label, c3) =>
            let u0 := (Unit.empty.comment "while loop \x7b").jmp guard_label
            let u1 := (u0.label start_label).comment "while body \x7b"
            let u2 := (u1.insert bu).comment "\x7d while body"
            let u3 := (u2.comment "while guard \x7b").label guard_label
            let u4 := (u3.insert gu).jmp_t start_label
            let u5 := (u4.comment "\x7d while guard").label end_label
            Except.ok (u5.comment "\x7d while loop",
              { ns := st2.ns.pop, counter := c3 })
termination_by sizeOf body + 1
end

/-- `_stack_size_expr` (registered for `Expr`): contributes 0, without
recursing into the child. -/
def stack_size_expr (_ : Expr) : Nat := 0

mutual
/-- `stack_size` dispatched at a `Stmt` (`_stack_size_stmt`): recurse into
the child. -/
def stack_size (s : Stmt) : Except GErr Nat :=
  match s with
  | Stmt.mk child => stack_size_node child
termination_by sizeOf s

/-- `stack_size` dispatched at a statement child node.  For a `Block` the
source tests `isinstance(stmt, [Block, WhileLoop])` — a list, not a tuple —
which raises `TypeError` on the first child, so any non-empty block fails;
an empty block returns 0.  `_stack_size_while_loop` sums the guard's and
body's contributions, `_stack_size_fn_def` adds the parameter count to the
body's, `_stack_size_var_decl` is 1, and expressions and assignments are
0. -/
def stack_size_node (c : StmtChild) : Except GErr Nat :=
  match c with
  | StmtChild.block children =>
    if children.isEmpty then Except.ok 0
    else Except.error (GErr.typeError
      "isinstance() arg 2 must be a type or tuple of types, not list")
  | StmtChild.whileLoop guard body =>
    (stack_size body).map (fun b => stack_size_expr guard + b)
  | StmtChild.fnDef _ arg_names body =>
    (stack_size body).map (fun b => arg_names.length + b)
  | StmtChild.varDecl _ => Except.ok 1
  | StmtChild.expr _ => Except.ok 0
  | StmtChild.assign _ _ => Except.ok 0
termination_by sizeOf c
end

/-- The fully assembled but not yet linked top-level unit of `gen`:
entry stub, user code, halt, intrinsics. -/
def assembled_unit (u : Unit) : Unit :=
  ((Unit.fresh.insert u).halt).intrinsics

/-- `gen`: generate the top-level statement with a fresh namespace, wrap it
with the entry stub, halt and intrinsics, and link.  `c0` is the value of
the process-global `_next_label_id` counter when `gen` is entered (initially
`-1`). -/
def gen (stmt : Stmt) (c0 : Int) : Except GErr Unit :=
  match gen_stmt stmt { ns := Namespace.empty, counter := c0 } with
  | Except.error er => Except.error er
  | Except.ok (u, _) => (assembled_unit u).link

/-- `True` when the deferred jump `p` points at an in-range instruction of a
jump kind that still carries the sentinel operand — the well-formedness that
`link`'s assertions check, and that every jump recorded through
`call`/`jmp`/`jmp_f`/`jmp_t` enjoys. -/
def jump_slot_ok (instrs : List Instr) (p : Nat × String) : Bool :=
  match instrs[p.1]? with
  | some i => is_jump_kind i.kind && (i.arg == some DUMMY_ADDR)
  | none => false

/-- All deferred jumps of the unit are well formed (see `jump_slot_ok`). -/
@[reducible] def JumpsWF (u : Unit) : Prop :=
  ∀ p ∈ u.jumps, jump_slot_ok u.instrs p = true

/-- What a successful link produces: same bookkeeping, same instruction
count, the operand of the instruction at every deferred jump's address
overwritten with `labels[name] - 1`, and every other instruction
untouched. -/
def link_success_spec (u : Unit) : Prop :=
  ∃ v, u.link = Except.ok v ∧
    v.labels = u.labels ∧ v.jumps = u.jumps ∧
    v.instrs.length = u.instrs.length ∧
    (∀ a n, (a, n) ∈ u.jumps → ∃ t i, dget u.labels n = some t ∧
      u.instrs[a]? = some i ∧
      v.instrs[a]? = some (Instr.mk i.kind (some ((t : Int) - 1)))) ∧
    (∀ a, a ∉ u.jumps.map Prod.fst → v.instrs[a]? = u.instrs[a]?)

/-- Linking fails with the unresolved-label `GenError`, for a name some
deferred jump targets and the label table lacks. -/
def link_unresolved_spec (u : Unit) : Prop :=
  ∃ n a, (a, n) ∈ u.jumps ∧ dget u.labels n = none ∧
    u.link = Except.error (GErr.unresolvedLabel n)

/-- The layout of a generated while loop: an unconditional jump to the guard
label first, the start label at index 1, the body, the guard label right
after the body, the guard code, a jump-if-true back to the start, and the
end label past everything. -/
def while_loop_layout (u bu gu : Unit) (sl gl el : String) : Prop :=
  u.instrs =
    Instr.mk InstrKind.Jmp (some DUMMY_ADDR) ::
      (bu.instrs ++ gu.instrs ++ [Instr.mk InstrKind.JmpT (some DUMMY_ADDR)]) ∧
  dget u.jumps 0 = some gl ∧
  dget u.jumps (1 + bu.instrs.length + gu.instrs.length) = some sl ∧
  dget u.labels sl = some 1 ∧
  dget u.labels gl = some (1 + bu.instrs.length) ∧
  dget u.labels el = some (2 + bu.instrs.length + gu.instrs.length)

/-- What `insert` guarantees, both structurally and after linking: A's
instructions survive as a prefix and B's follow; B's labels, jumps and
comment indices reappear shifted by A's length; and (under the freshness
side conditions of `C7_insert_link`) linking the combination reproduces the
link of A exactly on the first `|A|` instructions and the link of B, with
jump operands rebased by `|A|`, on the rest. -/
def insert_link_spec (a b : Unit) : Prop :=
  (a.insert b).instrs = a.instrs ++ b.instrs ∧
  (∀ n v, dget b.labels n = some v →
    dget (a.insert b).labels n = some (v + a.instrs.length)) ∧
  (∀ p ∈ b.jumps, (p.1 + a.instrs.length, p.2) ∈ (a.insert b).jumps) ∧
  (∀ p ∈ b.comments,
    ∃ c, dget (a.insert b).comments (p.1 + (a.instrs.length : Int)) = some c) ∧
  ∃ vC vA vB, (a.insert b).link = Except.ok vC ∧ a.link = Except.ok vA ∧
    b.link = Except.ok vB ∧
    vC.instrs.length = a.instrs.length + b.instrs.length ∧
    (∀ i, i < a.instrs.length → vC.instrs[i]? = vA.instrs[i]?) ∧
    (∀ j, j ∉ b.jumps.map Prod.fst →
      vC.instrs[a.instrs.length + j]? = vB.instrs[j]?) ∧
    (∀ j n, (j, n) ∈ b.jumps → ∃ t i, dget b.labels n = some t ∧
      b.instrs[j]? = some i ∧
      vB.instrs[j]? = some (Instr.mk i.kind (some ((t : Int) - 1))) ∧
      vC.instrs[a.instrs.length + j]? =
        some (Instr.mk i.kind (some ((t : Int) + a.instrs.length - 1))))

/-- The five-instruction entry stub emitted by `Unit.fresh`. -/
def entry_stub : List Instr :=
  [Instr.mk InstrKind.Push (some 8), Instr.mk InstrKind.Push (some 0),
    Instr.mk InstrKind.Store none, Instr.mk InstrKind.Call (some DUMMY_ADDR),
    Instr.mk InstrKind.Halt none]

/-- The expression statement `1;`. -/
def stmt_lit_one : Stmt :=
  Stmt.mk (StmtChild.expr (Expr.mk (ExprChild.lit ⟨LitChild.int 1⟩)))

/-- A generator state as `gen` creates it: empty namespace, counter at the
initial `-1`. -/
def gen_st0 : GenSt := { ns := Namespace.empty, counter := -1 }

/-- The literal guard `0`. -/
def guard_lit_zero : Expr := Expr.mk (ExprChild.lit ⟨LitChild.int 0⟩)

/-- The empty block statement `{ }`. -/
def body_empty_block : Stmt := Stmt.mk (StmtChild.block [])

/-- A resolver with an outer and an inner frame both binding `x`. -/
def ns_shadow : Namespace := ⟨[[("x", 1)], [("x", 2)]], 0⟩

/-- A one-jump, one-label unit: `jmp L; L:`. -/
def unit_jl : Unit := (Unit.empty.jmp "L").label "L"

/-- A unit whose only label `L` collides with `unit_jl`'s. -/
def unit_pop_l : Unit := (Unit.empty.pop).label "L"

/-- `jmp La; La:` — first component of the disjoint-label witness pair. -/
def unit_la : Unit := (Unit.empty.jmp "La").label "La"

/-- `jmp Lb; Lb:` — second component of the disjoint-label witness pair. -/
def unit_lb : Unit := (Unit.empty.jmp "Lb").label "Lb"

instance {e a : Type} [DecidableEq e] [DecidableEq a] :
    DecidableEq (Except e a) := fun x y =>
  match x, y with
  | Except.error u, Except.error v =>
    if h : u = v then isTrue (congrArg Except.error h)
    else isFalse (fun hh => h (by injection hh))
  | Except.error _, Except.ok _ => isFalse (fun hh => Except.noConfusion hh)
  | Except.ok _, Except.error _ => isFalse (fun hh => Except.noConfusion hh)
  | Except.ok u, Except.ok v =>
    if h : u = v then isTrue (congrArg Except.ok h)
    else isFalse (fun hh => h (by injection hh))

/-! ## Association-list (Python dict) lemmas -/

theorem dget_dset_self {α β : Type} [DecidableEq α] (m : List (α × β)) (k : α)
    (v : β) : dget (dset m k v) k = some v := by
  induction m with
  | nil => simp [dset, dget]
  | cons p t ih =>
    obtain ⟨k0, v0⟩ := p
    by_cases h : k0 = k
    · simp [dset, h, dget]
    · simp [dset, h, dget, ih]

theorem dget_dset_ne {α β : Type} [DecidableEq α] (m : List (α × β))
    (k k' : α) (v : β) (h : k ≠ k') : dget (dset m k v) k' = dget m k' := by
  induction m with
  | nil => simp [dset, dget, h]
  | cons p t ih =>
    obtain ⟨k0, v0⟩ := p
    by_cases h0 : k0 = k
    · subst h0
      simp [dset, dget, h]
    · simp [dset, h0, dget, ih]

theorem dget_eq_none_iff {α β : Type} [DecidableEq α] (m : List (α × β))
    (k : α) : dget m k = none ↔ k ∉ m.map Prod.fst := by
  induction m with
  | nil => simp [dget]
  | cons p t ih =>
    obtain ⟨k0, v0⟩ := p
    by_cases h : k0 = k
    · simp [dget, h]
    · simp [dget, h, ih, Ne.symm h]

theorem dget_mem {α β : Type} [DecidableEq α] {m : List (α × β)} {k : α}
    {v : β} (h : dget m k = some v) : (k, v) ∈ m := by
  induction m with
  | nil => simp [dget] at h
  | cons p t ih =>
    obtain ⟨k0, v0⟩ := p
    by_cases h0 : k0 = k
    · subst h0
      simp [dget] at h
      simp [h]
    · simp [dget, h0] at h
      exact List.mem_cons_of_mem _ (ih h)

theorem dset_cons_ne {α β : Type} [DecidableEq α] (m : List (α × β))
    (k0 k : α) (v0 v : β) (h : k0 ≠ k) :
    dset ((k0, v0) :: m) k v = (k0, v0) :: dset m k v := by
  simp [dset, h]

theorem dset_eq_append {α β : Type} [DecidableEq α] (m : List (α × β))
    (k : α) (v : β) (h : k ∉ m.map Prod.fst) : dset m k v = m ++ [(k, v)] := by
  induction m with
  | nil => simp [dset]
  | cons p t ih =>
    obtain ⟨k0, v0⟩ := p
    simp only [List.map_cons, List.mem_cons] at h
    push_neg at h
    rw [dset_cons_ne _ _ _ _ _ (fun e => h.1 e.symm), ih h.2]
    simp

theorem keys_dset_mem {α β : Type} [DecidableEq α] (m : List (α × β))
    (k k' : α) (v : β) (h : k' ∈ m.map Prod.fst) :
    k' ∈ (dset m k v).map Prod.fst := by
  induction m with
  | nil => simp at h
  | cons p t ih =>
    obtain ⟨k0, v0⟩ := p
    by_cases h0 : k0 = k
    · subst h0
      have hd : dset ((k0, v0) :: t) k0 v = (k0, v) :: t := by simp [dset]
      rw [hd]
      simpa using h
    · simp only [dset, h0, if_false, List.map_cons, List.mem_cons] at h ⊢
      rcases h with h | h
      · exact Or.inl h
      · exact Or.inr (ih h)

theorem dupdate_nil {α β : Type} [DecidableEq α] (m : List (α × β)) :
    dupdate m [] = m := rfl

theorem dupdate_cons {α β : Type} [DecidableEq α] (m : List (α × β))
    (p : α × β) (l : List (α × β)) :
    dupdate m (p :: l) = dupdate (dset m p.1 p.2) l := rfl

theorem dupdate_cons_pair {α β : Type} [DecidableEq α] (m : List (α × β))
    (k : α) (v : β) (l : List (α × β)) :
    dupdate m ((k, v) :: l) = dupdate (dset m k v) l := rfl

theorem dget_dupdate_of_notin {α β : Type} [DecidableEq α]
    (m l : List (α × β)) (k : α) (h : k ∉ l.map Prod.fst) :
    dget (dupdate m l) k = dget m k := by
  induction l generalizing m with
  | nil => rfl
  | cons p t ih =>
    simp only [List.map_cons, List.mem_cons] at h
    push_neg at h
    rw [dupdate_cons, ih _ h.2, dget_dset_ne _ _ _ _ (fun e => h.1 e.symm)]

theorem dget_dupdate_of_mem {α β : Type} [DecidableEq α]
    (m l : List (α × β)) (k : α) (v : β)
    (hnd : (l.map Prod.fst).Nodup) (h : dget l k = some v) :
    dget (dupdate m l) k = some v := by
  induction l generalizing m with
  | nil => simp [dget] at h
  | cons p t ih =>
    obtain ⟨k0, v0⟩ := p
    simp only [List.map_cons, List.nodup_cons] at hnd
    rw [dupdate_cons]
    by_cases hk : k0 = k
    · subst hk
      simp only [dget, if_pos rfl] at h
      rw [dget_dupdate_of_notin _ _ _ hnd.1, dget_dset_self]
      exact congrArg some (Option.some.inj h)
    · simp only [dget, hk, if_false] at h
      exact ih _ hnd.2 h

theorem dget_dupdate_isSome {α β : Type} [DecidableEq α]
    (m l : List (α × β)) (k : α) (h : k ∈ l.map Prod.fst) :
    ∃ c, dget (dupdate m l) k = some c := by
  induction l generalizing m with
  | nil => simp at h
  | cons p t ih =>
    rw [dupdate_cons]
    by_cases ht : k ∈ t.map Prod.fst
    · exact ih _ ht
    · simp only [List.map_cons, List.mem_cons] at h
      rcases h with h | h
      · subst h
        refine ⟨p.2, ?_⟩
        rw [dget_dupdate_of_notin _ _ _ ht, dget_dset_self]
      · exact absurd h ht

theorem dupdate_eq_append {α β : Type} [DecidableEq α]
    (m l : List (α × β)) (hnd : (l.map Prod.fst).Nodup)
    (hdisj : ∀ a ∈ l.map Prod.fst, a ∉ m.map Prod.fst) :
    dupdate m l = m ++ l := by
  induction l generalizing m with
  | nil => simp [dupdate_nil]
  | cons p t ih =>
    obtain ⟨k0, v0⟩ := p
    simp only [List.map_cons, List.nodup_cons] at hnd
    have hk0 : k0 ∉ m.map Prod.fst := hdisj k0 (by simp)
    have hset : dset m k0 v0 = m ++ [(k0, v0)] := dset_eq_append m k0 v0 hk0
    have hdisj2 : ∀ a ∈ t.map Prod.fst, a ∉ (m ++ [(k0, v0)]).map Prod.fst := by
      intro a ha
      have h1 : a ∉ m.map Prod.fst := hdisj a (by simp [ha])
      have h2 : a ≠ k0 := fun e => hnd.1 (e ▸ ha)
      simp [h1, h2]
    rw [dupdate_cons_pair, hset, ih (m ++ [(k0, v0)]) hnd.2 hdisj2]
    simp

theorem dupdate_cons_of_notin {α β : Type} [DecidableEq α]
    (m l : List (α × β)) (k : α) (v : β) (h : k ∉ l.map Prod.fst) :
    dupdate ((k, v) :: m) l = (k, v) :: dupdate m l := by
  induction l generalizing m with
  | nil => rfl
  | cons p t ih =>
    obtain ⟨k1, v1⟩ := p
    simp only [List.map_cons, List.mem_cons] at h
    push_neg at h
    rw [dupdate_cons_pair, dset_cons_ne _ _ _ _ _ h.1, ih _ h.2,
      dupdate_cons_pair]

theorem dget_map_value {α β γ : Type} [DecidableEq α] (l : List (α × β))
    (f : β → γ) (k : α) :
    dget (l.map (fun p => (p.1, f p.2))) k = (dget l k).map f := by
  induction l with
  | nil => simp [dget]
  | cons p t ih =>
    obtain ⟨k0, v0⟩ := p
    by_cases h : k0 = k
    · simp [dget, h]
    · simp [dget, h, ih]

theorem keys_map_value {α β γ : Type} (l : List (α × β)) (f : β → γ) :
    (l.map (fun p => (p.1, f p.2))).map Prod.fst = l.map Prod.fst := by
  induction l with
  | nil => rfl
  | cons p t ih => simp [ih]

theorem dget_shift_eq {β : Type} (l : List (Nat × β)) (off k : Nat) :
    dget (l.map (fun p => (p.1 + off, p.2))) (k + off) = dget l k := by
  induction l with
  | nil => simp [dget]
  | cons p t ih =>
    obtain ⟨k0, v0⟩ := p
    by_cases h : k0 = k
    · simp [dget, h]
    · have h2 : ¬(k0 + off = k + off) := by omega
      simp [dget, h, h2, ih]

theorem dget_shift_lt {β : Type} (l : List (Nat × β)) (off k : Nat)
    (h : k < off) : dget (l.map (fun p => (p.1 + off, p.2))) k = none := by
  induction l with
  | nil => simp [dget]
  | cons p t ih =>
    have h2 : ¬(p.1 + off = k) := by omega
    simp [dget, h2, ih]

/-! ## Projection lemmas for the assembler operations -/

@[simp] theorem add_instr_instrs (u : Unit) (k : InstrKind) (a : Option Int) :
    (u.add_instr k a).instrs = u.instrs ++ [⟨k, a⟩] := rfl

@[simp] theorem add_instr_labels (u : Unit) (k : InstrKind) (a : Option Int) :
    (u.add_instr k a).labels = u.labels := rfl

@[simp] theorem add_instr_jumps (u : Unit) (k : InstrKind) (a : Option Int) :
    (u.add_instr k a).jumps = u.jumps := rfl

@[simp] theorem label_instrs (u : Unit) (n : String) :
    (u.label n).instrs = u.instrs := rfl

@[simp] theorem label_labels (u : Unit) (n : String) :
    (u.label n).labels = dset u.labels n u.instrs.length := rfl

@[simp] theorem label_jumps (u : Unit) (n : String) :
    (u.label n).jumps = u.jumps := rfl

@[simp] theorem comment_instrs (u : Unit) (c : String) :
    (u.comment c).instrs = u.instrs := by
  cases hd : dget u.comments (u.instrs.length : Int) <;> simp [Unit.comment, hd]

@[simp] theorem comment_labels (u : Unit) (c : String) :
    (u.comment c).labels = u.labels := by
  cases hd : dget u.comments (u.instrs.length : Int) <;> simp [Unit.comment, hd]

@[simp] theorem comment_jumps (u : Unit) (c : String) :
    (u.comment c).jumps = u.jumps := by
  cases hd : dget u.comments (u.instrs.length : Int) <;> simp [Unit.comment, hd]

@[simp] theorem inline_comment_instrs (u : Unit) (c : String) :
    (u.inline_comment c).instrs = u.instrs := by
  cases hd : dget u.inline_comments ((u.instrs.length : Int) - 1) <;>
    simp [Unit.inline_comment, hd]

@[simp] theorem inline_comment_labels (u : Unit) (c : String) :
    (u.inline_comment c).labels = u.labels := by
  cases hd : dget u.inline_comments ((u.instrs.length : Int) - 1) <;>
    simp [Unit.inline_comment, hd]

@[simp] theorem inline_comment_jumps (u : Unit) (c : String) :
    (u.inline_comment c).jumps = u.jumps := by
  cases hd : dget u.inline_comments ((u.instrs.length : Int) - 1) <;>
    simp [Unit.inline_comment, hd]

@[simp] theorem push_instrs (u : Unit) (a : Int) :
    (u.push a).instrs = u.instrs ++ [⟨InstrKind.Push, some a⟩] := rfl

@[simp] theorem push_labels (u : Unit) (a : Int) : (u.push a).labels = u.labels := rfl

@[simp] theorem push_jumps (u : Unit) (a : Int) : (u.push a).jumps = u.jumps := rfl

@[simp] theorem pop_instrs (u : Unit) :
    u.pop.instrs = u.instrs ++ [⟨InstrKind.Pop, none⟩] := rfl

@[simp] theorem pop_labels (u : Unit) : u.pop.labels = u.labels := rfl

@[simp] theorem pop_jumps (u : Unit) : u.pop.jumps = u.jumps := rfl

@[simp] theorem halt_instrs (u : Unit) :
    u.halt.instrs = u.instrs ++ [⟨InstrKind.Halt, none⟩] := rfl

@[simp] theorem halt_labels (u : Unit) : u.halt.labels = u.labels := rfl

@[simp] theorem halt_jumps (u : Unit) : u.halt.jumps = u.jumps := rfl

@[simp] theorem rot_instrs (u : Unit) :
    u.rot.instrs = u.instrs ++ [⟨InstrKind.Rot, none⟩] := rfl

@[simp] theorem rot_labels (u : Unit) : u.rot.labels = u.labels := rfl

@[simp] theorem rot_jumps (u : Unit) : u.rot.jumps = u.jumps := rfl

@[simp] theorem load_instrs (u : Unit) :
    u.load.instrs = u.instrs ++ [⟨InstrKind.Load, none⟩] := rfl

@[simp] theorem load_labels (u : Unit) : u.load.labels = u.labels := rfl

@[simp] theorem load_jumps (u : Unit) : u.load.jumps = u.jumps := rfl

@[simp] theorem store_instrs (u : Unit) :
    u.store.instrs = u.instrs ++ [⟨InstrKind.Store, none⟩] := rfl

@[simp] theorem store_labels (u : Unit) : u.store.labels = u.labels := rfl

@[simp] theorem store_jumps (u : Unit) : u.store.jumps = u.jumps := rfl

@[simp] theorem addop_instrs (u : Unit) :
    u.add.instrs = u.instrs ++ [⟨InstrKind.Add, none⟩] := rfl

@[simp] theorem addop_labels (u : Unit) : u.add.labels = u.labels := rfl

@[simp] theorem addop_jumps (u : Unit) : u.add.jumps = u.jumps := rfl

@[simp] theorem subop_instrs (u : Unit) :
    u.sub.instrs = u.instrs ++ [⟨InstrKind.Sub, none⟩] := rfl

@[simp] theorem subop_labels (u : Unit) : u.sub.labels = u.labels := rfl

@[simp] theorem subop_jumps (u : Unit) : u.sub.jumps = u.jumps := rfl

@[simp] theorem shlop_instrs (u : Unit) :
    u.shl.instrs = u.instrs ++ [⟨InstrKind.Shl, none⟩] := rfl

@[simp] theorem shlop_labels (u : Unit) : u.shl.labels = u.labels := rfl

@[simp] theorem shlop_jumps (u : Unit) : u.shl.jumps = u.jumps := rfl

@[simp] theorem ret_instrs (u : Unit) :
    u.ret.instrs = u.instrs ++ [⟨InstrKind.Ret, none⟩] := rfl

@[simp] theorem ret_labels (u : Unit) : u.ret.labels = u.labels := rfl

@[simp] theorem ret_jumps (u : Unit) : u.ret.jumps = u.jumps := rfl

@[simp] theorem print_instrs (u : Unit) :
    u.print.instrs = u.instrs ++ [⟨InstrKind.Print, none⟩] := rfl

@[simp] theorem print_labels (u : Unit) : u.print.labels = u.labels := rfl

@[simp] theorem print_jumps (u : Unit) : u.print.jumps = u.jumps := rfl

@[simp] theorem call_instrs (u : Unit) (n : String) :
    (u.call n).instrs = u.instrs ++ [⟨InstrKind.Call, some DUMMY_ADDR⟩] := rfl

@[simp] theorem call_labels (u : Unit) (n : String) :
    (u.call n).labels = u.labels := rfl

@[simp] theorem call_jumps (u : Unit) (n : String) :
    (u.call n).jumps = dset u.jumps u.instrs.length n := rfl

@[simp] theorem jmp_instrs (u : Unit) (n : String) :
    (u.jmp n).instrs = u.instrs ++ [⟨InstrKind.Jmp, some DUMMY_ADDR⟩] := rfl

@[simp] theorem jmp_labels (u : Unit) (n : String) :
    (u.jmp n).labels = u.labels := rfl

@[simp] theorem jmp_jumps (u : Unit) (n : String) :
    (u.jmp n).jumps = dset u.jumps u.instrs.length n := rfl

@[simp] theorem jmp_t_instrs (u : Unit) (n : String) :
    (u.jmp_t n).instrs = u.instrs ++ [⟨InstrKind.JmpT, some DUMMY_ADDR⟩] := rfl

@[simp] theorem jmp_t_labels (u : Unit) (n : String) :
    (u.jmp_t n).labels = u.labels := rfl

@[simp] theorem jmp_t_jumps (u : Unit) (n : String) :
    (u.jmp_t n).jumps = dset u.jumps u.instrs.length n := rfl

@[simp] theorem insert_instrs (a b : Unit) :
    (a.insert b).instrs = a.instrs ++ b.instrs := rfl

@[simp] theorem insert_labels (a b : Unit) :
    (a.insert b).labels =
      dupdate a.labels (b.labels.map (fun p => (p.1, p.2 + a.instrs.length))) := rfl

@[simp] theorem insert_jumps (a b : Unit) :
    (a.insert b).jumps =
      dupdate a.jumps (b.jumps.map (fun p => (p.1 + a.instrs.length, p.2))) := rfl

/-! ## The link pass -/

theorem jump_slot_ok_congr (instrs instrs' : List Instr) (p : Nat × String)
    (h : instrs'[p.1]? = instrs[p.1]?) :
    jump_slot_ok instrs' p = jump_slot_ok instrs p := by
  unfold jump_slot_ok
  rw [h]

theorem linkGo_ok (labels : List (String × Nat)) (js : List (Nat × String))
    (instrs : List Instr)
    (hwf : ∀ p ∈ js, jump_slot_ok instrs p = true)
    (hnd : (js.map Prod.fst).Nodup)
    (hres : ∀ p ∈ js, (dget labels p.2).isSome = true) :
    ∃ out, linkGo labels js instrs = Except.ok out ∧
      out.length = instrs.length ∧
      (∀ a, a ∉ js.map Prod.fst → out[a]? = instrs[a]?) ∧
      (∀ a n, (a, n) ∈ js → ∃ t i, dget labels n = some t ∧
        instrs[a]? = some i ∧
        out[a]? = some (Instr.mk i.kind (some ((t : Int) - 1)))) := by
  induction js generalizing instrs with
  | nil =>
    exact ⟨instrs, rfl, rfl, fun a _ => rfl, fun a n h => absurd h (by simp)⟩
  | cons p rest ih =>
    obtain ⟨a, n⟩ := p
    have hw := hwf (a, n) (List.mem_cons_self _ _)
    unfold jump_slot_ok at hw
    cases hi : instrs[a]? with
    | none => rw [hi] at hw; simp at hw
    | some i =>
      rw [hi] at hw
      simp only [Bool.and_eq_true, beq_iff_eq] at hw
      obtain ⟨hki, hai⟩ := hw
      have hr := hres (a, n) (List.mem_cons_self _ _)
      cases ht : dget labels n with
      | none => rw [ht] at hr; simp at hr
      | some t =>
        have halen : a < instrs.length := (List.getElem?_eq_some.mp hi).1
        have hstep : linkGo labels ((a, n) :: rest) instrs =
            linkGo labels rest
              (instrs.set a (Instr.mk i.kind (some ((t : Int) - 1)))) := by
          simp [linkGo, ht, hi, hki, hai]
        simp only [List.map_cons, List.nodup_cons] at hnd
        have hwf' : ∀ p ∈ rest,
            jump_slot_ok (instrs.set a (Instr.mk i.kind (some ((t : Int) - 1)))) p
              = true := by
          intro q hq
          have hqa : a ≠ q.1 := fun e => hnd.1 (e ▸ List.mem_map_of_mem Prod.fst hq)
          rw [jump_slot_ok_congr instrs _ q (List.getElem?_set_ne hqa)]
          exact hwf q (List.mem_cons_of_mem _ hq)
        have hres' : ∀ p ∈ rest, (dget labels p.2).isSome = true :=
          fun q hq => hres q (List.mem_cons_of_mem _ hq)
        obtain ⟨out, hout, hlen, hun, hset⟩ :=
          ih _ hwf' hnd.2 hres'
        refine ⟨out, by rw [hstep]; exact hout,
          by rw [hlen, List.length_set], ?_, ?_⟩
        · intro a' ha'
          simp only [List.map_cons, List.mem_cons] at ha'
          push_neg at ha'
          rw [hun a' ha'.2, List.getElem?_set_ne (fun e => ha'.1 e.symm)]
        · intro a' n' hmem
          rcases List.mem_cons.mp hmem with he | hmem2
          · cases he
            refine ⟨t, i, ht, hi, ?_⟩
            rw [hun a hnd.1, List.getElem?_set_self halen]
          · obtain ⟨t', i', ht', hi', hout'⟩ := hset a' n' hmem2
            have ha' : a ≠ a' :=
              fun e => hnd.1 (e ▸ List.mem_map_of_mem Prod.fst hmem2)
            rw [List.getElem?_set_ne ha'] at hi'
            exact ⟨t', i', ht', hi', hout'⟩

theorem linkGo_err (labels : List (String × Nat)) (js : List (Nat × String))
    (instrs : List Instr)
    (hwf : ∀ p ∈ js, jump_slot_ok instrs p = true)
    (hnd : (js.map Prod.fst).Nodup)
    (hmiss : ∃ p ∈ js, dget labels p.2 = none) :
    ∃ n, (∃ a, (a, n) ∈ js ∧ dget labels n = none) ∧
      linkGo labels js instrs = Except.error (GErr.unresolvedLabel n) := by
  induction js generalizing instrs with
  | nil => simp at hmiss
  | cons p rest ih =>
    obtain ⟨a, n⟩ := p
    cases ht : dget labels n with
    | none =>
      refine ⟨n, ⟨a, List.mem_cons_self _ _, ht⟩, ?_⟩
      simp [linkGo, ht]
    | some t =>
      have hw := hwf (a, n) (List.mem_cons_self _ _)
      unfold jump_slot_ok at hw
      cases hi : instrs[a]? with
      | none => rw [hi] at hw; simp at hw
      | some i =>
        rw [hi] at hw
        simp only [Bool.and_eq_true, beq_iff_eq] at hw
        obtain ⟨hki, hai⟩ := hw
        have hstep : linkGo labels ((a, n) :: rest) instrs =
            linkGo labels rest
              (instrs.set a (Instr.mk i.kind (some ((t : Int) - 1)))) := by
          simp [linkGo, ht, hi, hki, hai]
        simp only [List.map_cons, List.nodup_cons] at hnd
        have hwf' : ∀ p ∈ rest,
            jump_slot_ok (instrs.set a (Instr.mk i.kind (some ((t : Int) - 1)))) p
              = true := by
          intro q hq
          have hqa : a ≠ q.1 := fun e => hnd.1 (e ▸ List.mem_map_of_mem Prod.fst hq)
          rw [jump_slot_ok_congr instrs _ q (List.getElem?_set_ne hqa)]
          exact hwf q (List.mem_cons_of_mem _ hq)
        have hmiss' : ∃ p ∈ rest, dget labels p.2 = none := by
          rcases hmiss with ⟨q, hq, hqn⟩
          rcases List.mem_cons.mp hq with he | hq2
          · rw [he] at hqn
            rw [hqn] at ht
            cases ht
          · exact ⟨q, hq2, hqn⟩
        obtain ⟨n', hn', hlink⟩ := ih _ hwf' hnd.2 hmiss'
        obtain ⟨a', ha', hn'none⟩ := hn'
        exact ⟨n', ⟨a', List.mem_cons_of_mem _ ha', hn'none⟩,
          by rw [hstep]; exact hlink⟩

/-- C1: for every assembler unit (whose deferred-jump table is a dict
pointing at in-range jump instructions still carrying the sentinel operand —
the invariant `link`'s own assertions check and the builder API maintains),
linking fails with an unresolved-label error if and only if some deferred
jump's symbolic name has no entry in the label table; otherwise it succeeds,
overwriting the operand of the instruction at each `jumps` address with
`labels[name] - 1` and modifying no other instruction. -/
theorem C1_link_resolution (u : Unit) (hwf : JumpsWF u)
    (hnd : (u.jumps.map Prod.fst).Nodup) :
    ((∀ p ∈ u.jumps, (dget u.labels p.2).isSome = true) → link_success_spec u) ∧
    ((∃ p ∈ u.jumps, dget u.labels p.2 = none) → link_unresolved_spec u) := by
  constructor
  · intro hres
    obtain ⟨out, hgo, hlen, hun, hset⟩ :=
      linkGo_ok u.labels u.jumps u.instrs hwf hnd hres
    refine ⟨{ u with instrs := out }, ?_, rfl, rfl, hlen, hset, hun⟩
    unfold Unit.link
    rw [hgo]
    rfl
  · intro hmiss
    obtain ⟨n, ⟨a, hmem, hnone⟩, hlink⟩ :=
      linkGo_err u.labels u.jumps u.instrs hwf hnd hmiss
    refine ⟨n, a, hmem, hnone, ?_⟩
    unfold Unit.link
    rw [hlink]
    rfl

/-- C1 witness: the unit `jmp L; L:` links successfully with the operand of
its jump rewritten to `labels[L] - 1 = 0`. -/
theorem C1_link_resolution_witness : link_success_spec unit_jl :=
  (C1_link_resolution unit_jl (by decide) (by decide)).1 (by decide)

/-! ## TOS-delta helpers (claim C5) -/

/-- C5 counterexample: `decr_tos(0)` does append instructions (six of them),
refuting the claim that a zero delta leaves the instruction sequence
unchanged for both helpers. -/
theorem C5_counterexample :
    (Unit.empty.decr_tos 0).instrs ≠ Unit.empty.instrs := by decide

/-- C5 (amended): `incr_tos(0)` is the identity, but `decr_tos(0)` emits the
full load / push 0 / sub / store sequence — only `incr_tos` has the
zero-delta skip; for every delta `d > 0` each helper emits the TOS-pointer
load, push-`d`, add/sub, store sequence. -/
theorem C5_tos_delta (u : Unit) (d : Nat) :
    u.incr_tos 0 = u ∧
    (u.decr_tos 0).instrs = u.instrs ++
      [⟨InstrKind.Push, some 0⟩, ⟨InstrKind.Load, none⟩,
        ⟨InstrKind.Push, some 0⟩, ⟨InstrKind.Sub, none⟩,
        ⟨InstrKind.Push, some 0⟩, ⟨InstrKind.Store, none⟩] ∧
    (0 < d →
      (u.incr_tos d).instrs = u.instrs ++
        [⟨InstrKind.Push, some 0⟩, ⟨InstrKind.Load, none⟩,
          ⟨InstrKind.Push, some (d : Int)⟩, ⟨InstrKind.Add, none⟩,
          ⟨InstrKind.Push, some 0⟩, ⟨InstrKind.Store, none⟩] ∧
      (u.decr_tos d).instrs = u.instrs ++
        [⟨InstrKind.Push, some 0⟩, ⟨InstrKind.Load, none⟩,
          ⟨InstrKind.Push, some (d : Int)⟩, ⟨InstrKind.Sub, none⟩,
          ⟨InstrKind.Push, some 0⟩, ⟨InstrKind.Store, none⟩]) := by
  refine ⟨?_, ?_, ?_⟩
  · rw [Unit.incr_tos]
    simp
  · simp [Unit.decr_tos, Unit.load_tos_ptr, Unit.store_tos_ptr, TOS_ADDR_PTR]
  · intro hd
    have hd0 : ¬(d = 0) := by omega
    constructor
    · simp [Unit.incr_tos, hd0, Unit.load_tos_ptr, Unit.store_tos_ptr,
        TOS_ADDR_PTR]
    · simp [Unit.decr_tos, Unit.load_tos_ptr, Unit.store_tos_ptr, TOS_ADDR_PTR]

/-- C5 witness: the amended theorem evaluated at delta 2 on the empty
unit. -/
theorem C5_tos_delta_witness :
    (Unit.empty.incr_tos 2).instrs = Unit.empty.instrs ++
      [⟨InstrKind.Push, some 0⟩, ⟨InstrKind.Load, none⟩,
        ⟨InstrKind.Push, some 2⟩, ⟨InstrKind.Add, none⟩,
        ⟨InstrKind.Push, some 0⟩, ⟨InstrKind.Store, none⟩] ∧
    (Unit.empty.decr_tos 2).instrs = Unit.empty.instrs ++
      [⟨InstrKind.Push, some 0⟩, ⟨InstrKind.Load, none⟩,
        ⟨InstrKind.Push, some 2⟩, ⟨InstrKind.Sub, none⟩,
        ⟨InstrKind.Push, some 0⟩, ⟨InstrKind.Store, none⟩] :=
  (C5_tos_delta Unit.empty 2).2.2 (by decide)

/-! ## Generation failures (claims C2, C3, C8) and frame sizes (C6) -/

/-- C2: refuted on the code.  Generating a variable declaration or a
function definition raises `TypeError` (both call `Namespace.add` without
its required `stack_size` argument), and the frame-size analysis of a
non-empty block raises `TypeError` (`isinstance` is given a list, not a
tuple) — errors outside the two specified kinds, so generation is not
total-up-to-`UnresolvedIdentifier`/`UnresolvedLabel`. -/
theorem C2_generation_raises_type_errors :
    ∃ m1 m2,
      gen_stmt (Stmt.mk (StmtChild.varDecl "x")) gen_st0 =
        Except.error (GErr.typeError m1) ∧
      gen_stmt (Stmt.mk (StmtChild.fnDef "f" [] stmt_lit_one)) gen_st0 =
        Except.error (GErr.typeError m1) ∧
      stack_size_node (StmtChild.block [stmt_lit_one]) =
        Except.error (GErr.typeError m2) ∧
      (∀ n, GErr.typeError m1 ≠ GErr.unresolvedIdentifier n ∧
        GErr.typeError m1 ≠ GErr.unresolvedLabel n ∧
        GErr.typeError m2 ≠ GErr.unresolvedIdentifier n ∧
        GErr.typeError m2 ≠ GErr.unresolvedLabel n) := by
  refine ⟨"add() missing 1 required positional argument: stack_size",
    "isinstance() arg 2 must be a type or tuple of types, not list",
    ?_, ?_, ?_, ?_⟩
  · simp [gen_stmt, gen_var_decl]
  · simp [gen_stmt, gen_fn_def]
  · simp [stack_size_node]
  · intro n
    refine ⟨?_, ?_, ?_, ?_⟩ <;> exact fun h => GErr.noConfusion h

/-- C3: refuted on the code.  Generating the expression statement `1;` from
an empty resolver leaves the frame stack one deeper than it started: the
dispatcher's `ns.push()` is never undone because the `ns.pop()` at the end
of `gen_stmt` sits after the returns and is unreachable. -/
theorem C3_dispatcher_frame_leak :
    (gen_stmt stmt_lit_one gen_st0).map (fun p => p.2.ns.stack.length) =
      Except.ok 1 ∧
    gen_st0.ns.stack.length = 0 := by
  have h : gen_stmt stmt_lit_one gen_st0 =
      Except.ok (((Unit.empty.push 1).inline_comment "int 1").pop,
        { ns := Namespace.empty.push, counter := -1 }) := by
    simp [gen_stmt, gen_expr, gen_lit, gen_int, stmt_lit_one, gen_st0]
    try rfl
  rw [h]
  exact ⟨rfl, rfl⟩

/-- C6: refuted on the code for blocks — the frame-size analysis of any
non-empty block raises `TypeError` at `isinstance(stmt, [Block, WhileLoop])`
(a list where a tuple is required) instead of returning the sum-plus-max;
an empty block yields 0, and the while-loop half of the claim holds: the
analyzer returns the guard's contribution plus the body's. -/
theorem C6_stack_size_block_crash :
    stack_size_node (StmtChild.block [stmt_lit_one]) =
      Except.error (GErr.typeError
        "isinstance() arg 2 must be a type or tuple of types, not list") ∧
    stack_size_node (StmtChild.block []) = Except.ok 0 ∧
    (∀ g b, stack_size_node (StmtChild.whileLoop g b) =
      (stack_size b).map (fun n => stack_size_expr g + n)) := by
  refine ⟨?_, ?_, ?_⟩
  · simp [stack_size_node]
  · simp [stack_size_node]
  · intro g b
    simp [stack_size_node]

/-- C8: refuted on the code.  Generating the function definition
`fn f(a) begin 1; end` raises `TypeError` at `ns.add(fn_def.arg_names)`
(missing `stack_size` argument) before a single instruction is emitted, so
the claimed label / incr_tos / body / decr_tos / rot / ret layout is never
produced.  The frame-size formula itself is as claimed: parameter count plus
the body's contribution. -/
theorem C8_fn_def_type_error :
    gen_fn_def "f" ["a"] stmt_lit_one gen_st0 =
      Except.error (GErr.typeError
        "add() missing 1 required positional argument: stack_size") ∧
    stack_size_node (StmtChild.fnDef "f" ["a"] stmt_lit_one) = Except.ok 1 := by
  constructor
  · rfl
  · simp [stack_size_node, stack_size, stmt_lit_one, Except.map]

/-! ## Name resolution (claim C9) -/

theorem frames_get_spec (frames : List (List (String × Nat))) (name : String) :
    (frames_get frames name = none ↔ ∀ f ∈ frames, dget f name = none) ∧
    (∀ v, frames_get frames name = some v →
      ∃ pre f post, frames = pre ++ f :: post ∧ dget f name = some v ∧
        ∀ g ∈ pre, dget g name = none) := by
  induction frames with
  | nil =>
    exact ⟨by simp [frames_get], fun v h => by simp [frames_get] at h⟩
  | cons f t ih =>
    cases hd : dget f name with
    | none =>
      constructor
      · rw [frames_get, hd]
        simp only [List.forall_mem_cons, hd, true_and]
        exact ih.1
      · intro v hv
        rw [frames_get, hd] at hv
        obtain ⟨pre, g, post, hsplit, hg, hpre⟩ := ih.2 v hv
        refine ⟨f :: pre, g, post, by rw [hsplit]; rfl, hg, ?_⟩
        intro x hx
        rcases List.mem_cons.mp hx with he | hx2
        · rw [he]; exact hd
        · exact hpre x hx2
    | some v0 =>
      constructor
      · constructor
        · intro h
          rw [frames_get, hd] at h
          cases h
        · intro hall
          have := hall f (List.mem_cons_self _ _)
          rw [this] at hd
          cases hd
      · intro v hv
        rw [frames_get, hd] at hv
        refine ⟨[], f, t, rfl, ?_, by simp⟩
        rw [hd]
        exact congrArg some (Option.some.inj hv)

/-- C9: `Namespace.get` succeeds with the slot bound in the innermost frame
that binds the name (an inner binding shadows any outer one), and raises the
unresolved-identifier error carrying the name exactly when no frame in the
stack binds it.  The innermost frame is the last element of `stack`, so the
returned binding is the one no later (more inner) frame shadows. -/
theorem C9_get_innermost (ns : Namespace) (name : String) :
    (ns.get name = Except.error (GErr.unresolvedIdentifier name) ↔
      ∀ f ∈ ns.stack, dget f name = none) ∧
    ((¬ ∀ f ∈ ns.stack, dget f name = none) →
      ∃ v, ns.get name = Except.ok v ∧
        ∃ pre f post, ns.stack = pre ++ f :: post ∧ dget f name = some v ∧
          ∀ g ∈ post, dget g name = none) := by
  have hs := frames_get_spec ns.stack.reverse name
  constructor
  · cases hfg : frames_get ns.stack.reverse name with
    | none =>
      have hget : ns.get name = Except.error (GErr.unresolvedIdentifier name) := by
        unfold Namespace.get
        rw [hfg]
      have h1 := hs.1.mp hfg
      exact ⟨fun _ f hf => h1 f (List.mem_reverse.mpr hf), fun _ => hget⟩
    | some v =>
      have hget : ns.get name = Except.ok v := by
        unfold Namespace.get
        rw [hfg]
      constructor
      · intro h
        rw [hget] at h
        cases h
      · intro hall
        obtain ⟨pre, f, post, hsplit, hf, hpre⟩ := hs.2 v hfg
        have hfmem : f ∈ ns.stack := by
          rw [← List.mem_reverse, hsplit]
          simp
        rw [hall f hfmem] at hf
        cases hf
  · intro hne
    cases hfg : frames_get ns.stack.reverse name with
    | none =>
      exact absurd (fun f hf => hs.1.mp hfg f (List.mem_reverse.mpr hf)) hne
    | some v =>
      obtain ⟨pre, f, post, hsplit, hf, hpre⟩ := hs.2 v hfg
      have hget : ns.get name = Except.ok v := by
        unfold Namespace.get
        rw [hfg]
      refine ⟨v, hget, post.reverse, f, pre.reverse, ?_, hf, ?_⟩
      · have h2 := congrArg List.reverse hsplit
        rw [List.reverse_reverse] at h2
        rw [h2]
        simp
      · intro g hg
        exact hpre g (List.mem_reverse.mp hg)

/-- C9 witness: with an outer frame binding `x ↦ 1` and an inner frame
binding `x ↦ 2`, `get x` returns the inner slot 2. -/
theorem C9_get_innermost_witness :
    ∃ v, ns_shadow.get "x" = Except.ok v ∧
      ∃ pre f post, ns_shadow.stack = pre ++ f :: post ∧ dget f "x" = some v ∧
        ∀ g ∈ post, dget g "x" = none :=
  (C9_get_innermost ns_shadow "x").2 (by decide)

/-! ## While-loop layout (claim C4) -/

theorem notin_keys_shift_vals (l : List (String × Nat)) (name : String)
    (off : Nat) (h : dget l name = none) :
    name ∉ (l.map (fun p => (p.1, p.2 + off))).map Prod.fst := by
  induction l with
  | nil => simp
  | cons p t ih =>
    obtain ⟨k0, v0⟩ := p
    by_cases hk : k0 = name
    · subst hk
      simp [dget] at h
    · simp only [dget, hk, if_false] at h
      simp only [List.map_cons, List.mem_cons]
      push_neg
      exact ⟨fun e => hk e.symm, ih h⟩

theorem notin_keys_shift_keys {β : Type} (l : List (Nat × β)) (k off : Nat)
    (h : k < off) :
    k ∉ (l.map (fun p => (p.1 + off, p.2))).map Prod.fst :=
  (dget_eq_none_iff _ k).mp (dget_shift_lt l off k h)

/-- C4: whenever the guard and the body of a while loop generate
successfully, the generated unit has exactly the claimed layout: an
unconditional jump (deferred to the guard label) first, the start label
bound to index 1, the body's instructions, the guard label bound to the
index right after the body, the guard's instructions, a jump-if-true
deferred to the start label, and the end label bound past everything — so
the guard runs before the body on every execution.  The freshness side
conditions (the three minted labels are distinct and unbound in the body's
and guard's label tables) always hold in practice because synthetic label
names carry strictly increasing counter values. -/
theorem C4_while_loop_layout (guard : Expr) (body : Stmt) (st : GenSt)
    (gu bu : Unit) (ns1 : Namespace) (st2 : GenSt)
    (hg : gen_expr guard st.ns.push = Except.ok (gu, ns1))
    (hb : gen_stmt body { ns := (ns1.pop).push, counter := st.counter } =
      Except.ok (bu, st2))
    (hbsl : dget bu.labels (new_label st2.counter).1 = none)
    (hgsl : dget gu.labels (new_label st2.counter).1 = none)
    (hggl : dget gu.labels (new_label (new_label st2.counter).2).1 = none)
    (hne1 : (new_label (new_label st2.counter).2).1 ≠ (new_label st2.counter).1)
    (hne2 : (new_label (new_label (new_label st2.counter).2).2).1 ≠
      (new_label st2.counter).1)
    (hne3 : (new_label (new_label (new_label st2.counter).2).2).1 ≠
      (new_label (new_label st2.counter).2).1) :
    ∃ u, gen_while_loop guard body st =
      Except.ok (u,
        GenSt.mk st2.ns.pop (new_label (new_label (new_label st2.counter).2).2).2) ∧
      while_loop_layout u bu gu (new_label st2.counter).1
        (new_label (new_label st2.counter).2).1
        (new_label (new_label (new_label st2.counter).2).2).1 := by
  rcases hn1 : new_label st2.counter with ⟨sl, c1⟩
  rcases hn2 : new_label c1 with ⟨gl, c2⟩
  rcases hn3 : new_label c2 with ⟨el, c3⟩
  simp only [hn1, hn2, hn3] at hbsl hgsl hggl hne1 hne2 hne3 ⊢
  have hrun : gen_while_loop guard body st =
      Except.ok
        (((((((((((((Unit.empty.comment "while loop \x7b").jmp gl).label
          sl).comment "while body \x7b").insert bu).comment
          "\x7d while body").comment "while guard \x7b").label gl).insert
          gu).jmp_t sl).comment "\x7d while guard").label el).comment
          "\x7d while loop",
          GenSt.mk st2.ns.pop c3) := by
    simp only [gen_while_loop, hg, hb, hn1, hn2, hn3]
  refine ⟨_, hrun, ?_⟩
  rw [while_loop_layout]
  have hsl_bkeys := notin_keys_shift_vals bu.labels sl 1 hbsl
  have hsl_gkeys := notin_keys_shift_vals gu.labels sl (1 + bu.instrs.length) hgsl
  have hgl_gkeys := notin_keys_shift_vals gu.labels gl (1 + bu.instrs.length) hggl
  refine ⟨?_, ?_, ?_, ?_, ?_, ?_⟩
  · simp [Unit.empty]
  · -- dget jumps 0 = some gl
    simp only [comment_jumps, label_jumps, jmp_t_jumps, insert_jumps,
      jmp_jumps, comment_instrs, label_instrs, insert_instrs, jmp_instrs,
      Unit.empty, List.length_append, List.length_cons, List.length_nil,
      List.nil_append, Nat.zero_add]
    rw [dget_dset_ne _ _ _ _ (by omega)]
    rw [dget_dupdate_of_notin _ _ _
      (notin_keys_shift_keys gu.jumps 0 _ (by omega))]
    rw [dget_dupdate_of_notin _ _ _
      (notin_keys_shift_keys bu.jumps 0 _ (by omega))]
    simp [dget, dset]
  · -- dget jumps (1 + |bu| + |gu|) = some sl
    simp only [comment_jumps, label_jumps, jmp_t_jumps, insert_jumps,
      jmp_jumps, comment_instrs, label_instrs, insert_instrs, jmp_instrs,
      Unit.empty, List.length_append, List.length_cons, List.length_nil,
      List.nil_append, Nat.zero_add]
    exact dget_dset_self _ _ _
  · -- dget labels sl = some 1
    simp only [comment_labels, label_labels, jmp_t_labels, insert_labels,
      jmp_labels, comment_instrs, label_instrs, insert_instrs, jmp_instrs,
      Unit.empty, List.length_append, List.length_cons, List.length_nil,
      List.nil_append, Nat.zero_add]
    rw [dget_dset_ne _ _ _ _ hne2]
    rw [dget_dupdate_of_notin _ _ _ hsl_gkeys]
    rw [dget_dset_ne _ _ _ _ hne1]
    rw [dget_dupdate_of_notin _ _ _ hsl_bkeys]
    simp [dget, dset]
  · -- dget labels gl = some (1 + |bu|)
    simp only [comment_labels, label_labels, jmp_t_labels, insert_labels,
      jmp_labels, comment_instrs, label_instrs, insert_instrs, jmp_instrs,
      Unit.empty, List.length_append, List.length_cons, List.length_nil,
      List.nil_append, Nat.zero_add]
    rw [dget_dset_ne _ _ _ _ hne3]
    rw [dget_dupdate_of_notin _ _ _ hgl_gkeys]
    exact dget_dset_self _ _ _
  · -- dget labels el = some (2 + |bu| + |gu|)
    simp only [comment_labels, label_labels, jmp_t_labels, insert_labels,
      jmp_labels, comment_instrs, label_instrs, insert_instrs, jmp_instrs,
      jmp_t_instrs, Unit.empty, List.length_append, List.length_cons,
      List.length_nil, List.nil_append, Nat.zero_add]
    convert dget_dset_self _ _ _ using 2
    omega

/-- C4 witness: the loop `while (0) begin end` generated from a fresh state;
the three minted labels are `__0`, `__1`, `__2` and the layout is
`jmp __1; __1 at 1 (empty body); guard code; jmp_t __0; __2 at 3`. -/
theorem C4_while_loop_layout_witness :
    ∃ u, gen_while_loop guard_lit_zero body_empty_block gen_st0 =
      Except.ok (u, { ns := ⟨[[]], 0⟩, counter := 2 }) ∧
      while_loop_layout u Unit.empty
        ((Unit.empty.push 0).inline_comment "int 0") "__0" "__1" "__2" := by
  have hg : gen_expr guard_lit_zero gen_st0.ns.push =
      Except.ok ((Unit.empty.push 0).inline_comment "int 0", ⟨[[]], 0⟩) := by
    simp only [gen_expr, gen_lit, gen_int, guard_lit_zero, gen_st0]
    rfl
  have hb : gen_stmt body_empty_block
      { ns := (Namespace.pop ⟨[[]], 0⟩).push, counter := gen_st0.counter } =
      Except.ok (Unit.empty, ⟨⟨[[], []], 0⟩, -1⟩) := by
    simp only [gen_stmt, gen_block, gen_stmts, body_empty_block, gen_st0]
    rfl
  have h := C4_while_loop_layout guard_lit_zero body_empty_block gen_st0
    ((Unit.empty.push 0).inline_comment "int 0") Unit.empty ⟨[[]], 0⟩
    ⟨⟨[[], []], 0⟩, -1⟩ hg hb (by decide) (by decide) (by decide) (by decide)
    (by decide) (by decide)
  exact h

/-! ## Entry stub and the `main` link (claim C10) -/

theorem fresh_instrs : Unit.fresh.instrs = entry_stub := by decide

theorem fresh_jumps : Unit.fresh.jumps = [(3, "main")] := by decide

theorem intrinsics_instrs (u : Unit) :
    (u.intrinsics).instrs = u.instrs ++ (Unit.empty.intrinsics).instrs := by
  simp [Unit.intrinsics, Unit.load_tos, Unit.load_tos_ptr, TOS_ADDR_PTR,
    Unit.empty, List.append_assoc]

theorem intrinsics_jumps (u : Unit) : (u.intrinsics).jumps = u.jumps := by
  simp [Unit.intrinsics, Unit.load_tos, Unit.load_tos_ptr, TOS_ADDR_PTR,
    Unit.empty, dupdate_nil]

/-- C10: for every top-level statement whose generation succeeds, the
assembled (pre-link) program starts with the entry stub
`Push 8; Push 0; Store; Call; Halt` whose `Call` is a deferred jump to the
name `main` recorded at index 3; and if the assembled unit declares no label
named `main`, the whole compile fails at link time with the
unresolved-label error for `main`. -/
theorem C10_entry_stub_and_main (stmt : Stmt) (c0 : Int) (u : Unit)
    (st' : GenSt)
    (h : gen_stmt stmt { ns := Namespace.empty, counter := c0 } =
      Except.ok (u, st')) :
    (assembled_unit u).instrs.take 5 = entry_stub ∧
    dget (assembled_unit u).jumps 3 = some "main" ∧
    (dget (assembled_unit u).labels "main" = none →
      gen stmt c0 = Except.error (GErr.unresolvedLabel "main")) := by
  have hjumps : (assembled_unit u).jumps =
      dupdate [(3, "main")] (u.jumps.map (fun p => (p.1 + 5, p.2))) := by
    rw [assembled_unit, intrinsics_jumps, halt_jumps, insert_jumps,
      fresh_jumps, fresh_instrs]
    rfl
  refine ⟨?_, ?_, ?_⟩
  · have ht : (assembled_unit u).instrs =
        entry_stub ++ (u.instrs ++ ([⟨InstrKind.Halt, none⟩] ++
          (Unit.empty.intrinsics).instrs)) := by
      rw [assembled_unit, intrinsics_instrs]
      simp [fresh_instrs, List.append_assoc]
    rw [ht]
    have h5 : entry_stub.length = 5 := rfl
    rw [← h5, List.take_left]
  · rw [hjumps]
    rw [dget_dupdate_of_notin _ _ _
      (notin_keys_shift_keys u.jumps 3 5 (by omega))]
    simp [dget]
  · intro hm
    have hcons : (assembled_unit u).jumps = (3, "main") ::
        dupdate [] (u.jumps.map (fun p => (p.1 + 5, p.2))) := by
      rw [hjumps]
      exact dupdate_cons_of_notin _ _ _ _
        (notin_keys_shift_keys u.jumps 3 5 (by omega))
    rw [gen, h]
    show ((assembled_unit u).link) = Except.error (GErr.unresolvedLabel "main")
    rw [Unit.link, hcons]
    rw [linkGo, hm]
    rfl

/-- C10 witness: compiling the expression statement `1;` (which generates
successfully but declares no `main`) fails at link time with the
unresolved-label error for `main`. -/
theorem C10_entry_stub_and_main_witness :
    gen stmt_lit_one (-1) = Except.error (GErr.unresolvedLabel "main") := by
  have h : gen_stmt stmt_lit_one { ns := Namespace.empty, counter := -1 } =
      Except.ok (((Unit.empty.push 1).inline_comment "int 1").pop,
        { ns := Namespace.empty.push, counter := -1 }) := by
    simp only [gen_stmt, gen_expr, gen_lit, gen_int, stmt_lit_one]
    rfl
  exact (C10_entry_stub_and_main stmt_lit_one (-1) _ _ h).2.2 (by decide)

/-! ## Concatenation and linking (claim C7) -/

theorem jump_slot_ok_lt (instrs : List Instr) (p : Nat × String)
    (h : jump_slot_ok instrs p = true) : p.1 < instrs.length := by
  unfold jump_slot_ok at h
  cases hi : instrs[p.1]? with
  | none => rw [hi] at h; simp at h
  | some i => exact (List.getElem?_eq_some.mp hi).1

theorem keys_shift_keys {β : Type} (l : List (Nat × β)) (off : Nat) :
    (l.map (fun p => (p.1 + off, p.2))).map Prod.fst =
      (l.map Prod.fst).map (fun k => k + off) := by
  induction l with
  | nil => rfl
  | cons p t ih => simp [ih]

theorem keys_shift_vals (l : List (String × Nat)) (off : Nat) :
    (l.map (fun p => (p.1, p.2 + off))).map Prod.fst = l.map Prod.fst := by
  induction l with
  | nil => rfl
  | cons p t ih => simp [ih]

theorem dget_shift_vals (l : List (String × Nat)) (off : Nat) (k : String) :
    dget (l.map (fun p => (p.1, p.2 + off))) k =
      (dget l k).map (fun v => v + off) := by
  induction l with
  | nil => simp [dget]
  | cons p t ih =>
    obtain ⟨k0, v0⟩ := p
    by_cases h : k0 = k
    · simp [dget, h]
    · simp [dget, h, ih]

theorem insert_comments (a b : Unit) :
    (a.insert b).comments = dupdate a.comments
      (((match dget a.comments (a.instrs.length : Int), dget b.comments 0 with
        | some ac, some bc => dset b.comments 0 (ac ++ "\n" ++ bc)
        | _, _ => b.comments) : List (Int × String)).map
        (fun p => (p.1 + (a.instrs.length : Int), p.2))) := rfl

/-- C7 counterexample: take A = `jmp L; L:` and B = `pop; L:`, whose label
names collide.  After insertion, `dict.update` lets B's shifted label `L`
shadow A's, so linking the combination resolves A's jump to B's label: the
first `len(A.instructions)` linked instructions are `[Jmp 1]` while linking
A alone gives `[Jmp 0]` — different although the A region is never
rebased. -/
theorem C7_counterexample :
    (Unit.insert unit_jl unit_pop_l).link.map (fun v => v.instrs.take 1) ≠
      unit_jl.link.map (fun v => v.instrs) := by decide

/-- C7 (amended): inserting B into A keeps A's instructions as a prefix,
appends B's, and re-adds B's labels, deferred jumps and comment indices
shifted by `len(A.instructions)`; and under the freshness conditions the
assembler's own discipline provides (well-formed jump dicts, B's label names
distinct, each unit's jumps resolving in its own label table, and no name
jumped to by A labelled in B), linking the combination reproduces the link
of A verbatim on the first `len(A.instructions)` instructions and the link
of B — with every resolved jump operand rebased by `len(A.instructions)` —
on the remainder. -/
theorem C7_insert_link (a b : Unit)
    (hwa : JumpsWF a) (hwb : JumpsWF b)
    (hna : (a.jumps.map Prod.fst).Nodup)
    (hnb : (b.jumps.map Prod.fst).Nodup)
    (hlb : (b.labels.map Prod.fst).Nodup)
    (hra : ∀ p ∈ a.jumps, (dget a.labels p.2).isSome = true)
    (hrb : ∀ p ∈ b.jumps, (dget b.labels p.2).isSome = true)
    (hdisj : ∀ p ∈ a.jumps, dget b.labels p.2 = none) :
    insert_link_spec a b := by
  have hkey_lt : ∀ k ∈ a.jumps.map Prod.fst, k < a.instrs.length := by
    intro k hk
    obtain ⟨p, hp, he⟩ := List.mem_map.mp hk
    have := jump_slot_ok_lt a.instrs p (hwa p hp)
    omega
  have hshift_keys_eq := keys_shift_keys b.jumps a.instrs.length
  have hshift_nodup :
      ((b.jumps.map (fun p => (p.1 + a.instrs.length, p.2))).map
        Prod.fst).Nodup := by
    rw [hshift_keys_eq]
    exact hnb.map (fun x y hxy => by omega)
  have hjumps_comb : (a.insert b).jumps =
      a.jumps ++ b.jumps.map (fun p => (p.1 + a.instrs.length, p.2)) := by
    rw [insert_jumps]
    refine dupdate_eq_append _ _ hshift_nodup ?_
    intro k hk hmem
    rw [hshift_keys_eq] at hk
    obtain ⟨k0, hk0, he⟩ := List.mem_map.mp hk
    have := hkey_lt k hmem
    omega
  have hlb_shift_nodup :
      ((b.labels.map (fun p => (p.1, p.2 + a.instrs.length))).map
        Prod.fst).Nodup := by
    rw [keys_shift_vals]
    exact hlb
  have hget_a : ∀ n, dget b.labels n = none →
      dget (a.insert b).labels n = dget a.labels n := by
    intro n hn
    rw [insert_labels]
    refine dget_dupdate_of_notin _ _ _ ?_
    rw [keys_shift_vals]
    exact (dget_eq_none_iff _ _).mp hn
  have hget_b : ∀ n t, dget b.labels n = some t →
      dget (a.insert b).labels n = some (t + a.instrs.length) := by
    intro n t hn
    rw [insert_labels]
    refine dget_dupdate_of_mem _ _ _ _ hlb_shift_nodup ?_
    rw [dget_shift_vals, hn]
    rfl
  have hwf_comb : ∀ p ∈ (a.insert b).jumps,
      jump_slot_ok (a.insert b).instrs p = true := by
    rw [hjumps_comb]
    intro p hp
    rcases List.mem_append.mp hp with hpa | hpb
    · have hlt : p.1 < a.instrs.length := jump_slot_ok_lt _ _ (hwa p hpa)
      rw [insert_instrs,
        jump_slot_ok_congr a.instrs _ p (List.getElem?_append_left hlt)]
      exact hwa p hpa
    · obtain ⟨q, hq, he⟩ := List.mem_map.mp hpb
      have hp1 : p.1 = q.1 + a.instrs.length := by rw [← he]
      have hq_ok := hwb q hq
      have heq : (a.instrs ++ b.instrs)[p.1]? = b.instrs[q.1]? := by
        rw [hp1, List.getElem?_append_right (by omega)]
        congr 1
        omega
      rw [insert_instrs]
      unfold jump_slot_ok at hq_ok ⊢
      rw [heq]
      exact hq_ok
  have hres_comb : ∀ p ∈ (a.insert b).jumps,
      (dget (a.insert b).labels p.2).isSome = true := by
    rw [hjumps_comb]
    intro p hp
    rcases List.mem_append.mp hp with hpa | hpb
    · rw [hget_a p.2 (hdisj p hpa)]
      exact hra p hpa
    · obtain ⟨q, hq, he⟩ := List.mem_map.mp hpb
      have hp2 : p.2 = q.2 := by rw [← he]
      have hr := hrb q hq
      cases ht : dget b.labels q.2 with
      | none => rw [ht] at hr; simp at hr
      | some t =>
        rw [hp2, hget_b q.2 t ht]
        rfl
  have hnd_comb : ((a.insert b).jumps.map Prod.fst).Nodup := by
    rw [hjumps_comb, List.map_append, List.nodup_append]
    refine ⟨hna, hshift_nodup, ?_⟩
    intro k hk
    rw [hshift_keys_eq]
    intro hmem
    obtain ⟨k0, hk0, he⟩ := List.mem_map.mp hmem
    have := hkey_lt k hk
    omega
  obtain ⟨outC, hgoC, hlenC, hunC, hsetC⟩ :=
    linkGo_ok (a.insert b).labels (a.insert b).jumps (a.insert b).instrs
      hwf_comb hnd_comb hres_comb
  obtain ⟨outA, hgoA, hlenA, hunA, hsetA⟩ :=
    linkGo_ok a.labels a.jumps a.instrs hwa hna hra
  obtain ⟨outB, hgoB, hlenB, hunB, hsetB⟩ :=
    linkGo_ok b.labels b.jumps b.instrs hwb hnb hrb
  refine ⟨insert_instrs a b, ?_, ?_, ?_,
    { a.insert b with instrs := outC }, { a with instrs := outA },
    { b with instrs := outB }, ?_, ?_, ?_, ?_, ?_, ?_, ?_⟩
  · intro n v hn
    exact hget_b n v hn
  · intro p hp
    rw [hjumps_comb]
    exact List.mem_append_right _ (List.mem_map_of_mem _ hp)
  · intro p hp
    rw [insert_comments]
    have hpk : p.1 ∈ b.comments.map Prod.fst := List.mem_map_of_mem _ hp
    have hkey : p.1 ∈
        (match dget a.comments (a.instrs.length : Int), dget b.comments 0 with
          | some ac, some bc => dset b.comments 0 (ac ++ "\n" ++ bc)
          | _, _ => b.comments).map Prod.fst := by
      cases dget a.comments (a.instrs.length : Int) <;>
        cases dget b.comments 0 <;>
        first
          | exact hpk
          | exact keys_dset_mem _ _ _ _ hpk
    obtain ⟨q, hq, he⟩ := List.mem_map.mp hkey
    refine dget_dupdate_isSome _ _ _ ?_
    refine List.mem_map.mpr ⟨(q.1 + (a.instrs.length : Int), q.2), ?_, ?_⟩
    · exact List.mem_map_of_mem _ hq
    · simp [he]
  · rw [Unit.link, hgoC]
    rfl
  · rw [Unit.link, hgoA]
    rfl
  · rw [Unit.link, hgoB]
    rfl
  · rw [hlenC, insert_instrs, List.length_append]
  · -- A region
    intro i hi
    by_cases hik : i ∈ a.jumps.map Prod.fst
    · obtain ⟨⟨i2, n⟩, hp, he⟩ := List.mem_map.mp hik
      simp only at he
      subst he
      obtain ⟨t, ci, htC, hiC, houtC2⟩ := hsetC i2 n
        (by rw [hjumps_comb]; exact List.mem_append_left _ hp)
      obtain ⟨t2, ai, htA, hiA, houtA2⟩ := hsetA i2 n hp
      rw [hget_a n (hdisj (i2, n) hp)] at htC
      rw [htA] at htC
      injection htC with hteq
      have hiC2 : (a.insert b).instrs[i2]? = a.instrs[i2]? := by
        rw [insert_instrs]
        exact List.getElem?_append_left hi
      rw [hiC2, hiA] at hiC
      injection hiC with hieq
      rw [houtC2, houtA2, hieq, hteq]
    · have hikC : i ∉ (a.insert b).jumps.map Prod.fst := by
        rw [hjumps_comb, List.map_append, List.mem_append]
        push_neg
        refine ⟨hik, ?_⟩
        rw [hshift_keys_eq]
        intro hmem
        obtain ⟨k0, hk0, he⟩ := List.mem_map.mp hmem
        omega
      rw [hunC i hikC, hunA i hik, insert_instrs]
      exact List.getElem?_append_left hi
  · -- B region, untouched instructions
    intro j hj
    have hikC : a.instrs.length + j ∉ (a.insert b).jumps.map Prod.fst := by
      rw [hjumps_comb, List.map_append, List.mem_append]
      push_neg
      constructor
      · intro hmem
        have := hkey_lt _ hmem
        omega
      · rw [hshift_keys_eq]
        intro hmem
        obtain ⟨k0, hk0, he⟩ := List.mem_map.mp hmem
        have : k0 = j := by omega
        rw [this] at hk0
        exact hj hk0
    rw [hunC _ hikC, hunB j hj, insert_instrs,
      List.getElem?_append_right (by omega)]
    congr 1
    omega
  · -- B region, rewritten jumps
    intro j n hjn
    have hbslot := hwb (j, n) hjn
    have hr := hrb (j, n) hjn
    cases ht : dget b.labels n with
    | none => rw [ht] at hr; simp at hr
    | some t =>
      unfold jump_slot_ok at hbslot
      cases hbi : b.instrs[j]? with
      | none => rw [hbi] at hbslot; simp at hbslot
      | some bi =>
        refine ⟨t, bi, rfl, rfl, ?_, ?_⟩
        · obtain ⟨t2, i2, ht2, hi2, hout2⟩ := hsetB j n hjn
          rw [ht] at ht2
          injection ht2 with hteq
          rw [hbi] at hi2
          injection hi2 with hieq
          rw [hout2, ← hieq, ← hteq]
        · have hmemC : (j + a.instrs.length, n) ∈ (a.insert b).jumps := by
            rw [hjumps_comb]
            exact List.mem_append_right _ (List.mem_map_of_mem _ hjn)
          obtain ⟨T, ci, hT, hci, houtc⟩ :=
            hsetC (j + a.instrs.length) n hmemC
          rw [hget_b n t ht] at hT
          injection hT with hTeq
          have hciB : (a.insert b).instrs[j + a.instrs.length]? =
              b.instrs[j]? := by
            rw [insert_instrs, List.getElem?_append_right (by omega)]
            congr 1
            omega
          rw [hciB, hbi] at hci
          injection hci with hieq
          rw [show a.instrs.length + j = j + a.instrs.length from by omega,
            houtc, ← hieq, ← hTeq]
          simp [Nat.cast_add]

/-- C7 witness: the amended theorem applied to A = `jmp La; La:` and
B = `jmp Lb; Lb:`, whose label names are disjoint. -/
theorem C7_insert_link_witness : insert_link_spec unit_la unit_lb :=
  C7_insert_link unit_la unit_lb (by decide) (by decide) (by decide)
    (by decide) (by decide) (by decide) (by decide) (by decide)

end Timber
